import Mathlib

/-!
Verification of the `ld9` cross-linker (Mach-O to Plan 9 a.out).

The development shallowly embeds the three source files:

* `macho.rs`  — the Mach-O data model (namespace `Macho`);
* `aout9.rs`  — the Plan 9 a.out model and encoder (namespace `Aout9`);
* `main.rs`   — the decoder `decode_macho`, the aggregator `to_aout`,
  and the `load` helper.

Buffers are `List Nat` of byte values.  Multi-byte fields are read
little-endian (the source reinterprets raw x86 memory) and the a.out
encoder writes each 4-byte field big-endian, exactly as `write_to` does.

The source reads structures with `reinterpret_copy`, whose own comment
says the behaviour is undefined when the slice is shorter than the
structure, and slices section payloads with `file[off..off+siz]`, which
panics when out of bounds.  Both of those non-returning outcomes are
modelled by the `DResult.crash` constructor; a decode that returns
`Err(e)` is `DResult.err e`, and a successful decode is `DResult.ok`.
-/

/-- Little-endian 32-bit value formed from the first four bytes of a list
(missing bytes read as 0; decode always passes in-bounds slices). -/
def le32 (l : List Nat) : Nat :=
  l.getD 0 0 + 2 ^ 8 * l.getD 1 0 + 2 ^ 16 * l.getD 2 0 + 2 ^ 24 * l.getD 3 0

/-- Little-endian 64-bit value formed from the first eight bytes. -/
def le64 (l : List Nat) : Nat :=
  le32 l + 2 ^ 32 * le32 (l.drop 4)

/-- Big-endian 4-byte encoding of a 32-bit value, as written by
`write_u32::<BigEndian>` in `aout9.rs`. -/
def be32 (n : Nat) : List Nat :=
  [n / 2 ^ 24 % 2 ^ 8, n / 2 ^ 16 % 2 ^ 8, n / 2 ^ 8 % 2 ^ 8, n % 2 ^ 8]

/-- The bytes of `file` at `[off, off+n)`, when that range lies inside the
buffer; `none` models the out-of-bounds access (panic or undefined
behaviour) the source would commit. -/
def readBytes (file : List Nat) (off n : Nat) : Option (List Nat) :=
  if off + n ≤ file.length then some ((file.drop off).take n) else none

/-- Reads `n` consecutive little-endian u32 values starting at the head of `l`. -/
def u32sOf (l : List Nat) (n : Nat) : List Nat :=
  (List.range n).map fun k => le32 (l.drop (4 * k))

/-- Reads `n` consecutive little-endian u64 values starting at the head of `l`. -/
def u64sOf (l : List Nat) (n : Nat) : List Nat :=
  (List.range n).map fun k => le64 (l.drop (8 * k))

namespace Macho

/-- Mach-O magic for 32-bit files (`M32` in `macho.rs`). -/
def M32 : Nat := 0xfeedface

/-- Mach-O magic for 64-bit files (`M64` in `macho.rs`). -/
def M64 : Nat := 0xfeedfacf

/-- Rust `struct Header` of `macho.rs`: magic, cputype, cpusubtype, filetype,
ncmds, sizeofcmds, flags — seven packed u32 fields, 28 bytes. -/
structure Header where
  magic : Nat
  cputype : Nat
  cpusubtype : Nat
  filetype : Nat
  ncmds : Nat
  sizeofcmds : Nat
  flags : Nat
deriving DecidableEq, Repr

/-- Byte size of `Header` (packed: 7 × 4). -/
def headerSize : Nat := 28

/-- Byte size of `Header64` (packed: 8 × 4, adds `reserved`). -/
def header64Size : Nat := 32

/-- The load-command tag constants of `macho.rs`. -/
def tagSegment32 : Nat := 0x1

def tagSymtab : Nat := 0x2

def tagUnixThread : Nat := 0x5

def tagDySymtab : Nat := 0xb

def tagLoadDylinker : Nat := 0xe

def tagSegment64 : Nat := 0x19

def tagUuid : Nat := 0x1b

def tagVersionMinOS : Nat := 0x24

def tagSourceVersion : Nat := 0x2A

/-- Rust `struct LoadCommandHead`: tag and declared byte size of a record. -/
structure LoadCommandHead where
  cmd : Nat
  cmdsize : Nat
deriving DecidableEq, Repr

/-- Rust `struct LoadCommand<T>`: a record head followed by its typed body. -/
structure LoadCommand (α : Type) where
  head : LoadCommandHead
  body : α
deriving DecidableEq, Repr

/-- Rust `struct LcSegment32`: 16-byte name then eight u32 fields (48 bytes). -/
structure LcSegment32 where
  segname : List Nat
  vmaddr : Nat
  vmsize : Nat
  fileoff : Nat
  filesize : Nat
  maxprot : Nat
  initprot : Nat
  nsects : Nat
  flags : Nat
deriving DecidableEq, Repr

/-- Rust `struct LcSegment64`: 16-byte name, four u64 fields, four u32 fields
(64 bytes). -/
structure LcSegment64 where
  segname : List Nat
  vmaddr : Nat
  vmsize : Nat
  fileoff : Nat
  filesize : Nat
  maxprot : Nat
  initprot : Nat
  nsects : Nat
  flags : Nat
deriving DecidableEq, Repr

/-- Rust `struct LcSymtab`: four u32 fields. -/
structure LcSymtab where
  symoff : Nat
  nsyms : Nat
  stroff : Nat
  strsize : Nat
deriving DecidableEq, Repr

/-- Rust `struct LcUnixThreadHead`: thread-state flavor and u32 count. -/
structure LcUnixThreadHead where
  flavor : Nat
  count : Nat
deriving DecidableEq, Repr

/-- Constant `ThreadStateFlavorX86`. -/
def ThreadStateFlavorX86 : Nat := 1

/-- Constant `ThreadStateFlavorX86_64`. -/
def ThreadStateFlavorX86_64 : Nat := 4

/-- Rust `enum ThreadState`: 16 u32 registers or 21 u64 registers. -/
inductive ThreadState where
  | ThreadStateX86 (regs : List Nat)
  | ThreadStateX86_64 (regs : List Nat)
deriving DecidableEq, Repr

/-- Rust `struct LcDySymtab`: eighteen u32 fields. -/
structure LcDySymtab where
  ilocalsym : Nat
  nlocalsym : Nat
  iextdefsym : Nat
  nextdefsym : Nat
  iundefsym : Nat
  nundefsym : Nat
  tocoff : Nat
  ntoc : Nat
  modtaboff : Nat
  nmodtab : Nat
  extrefsymoff : Nat
  nextrefsyms : Nat
  indirectsymoff : Nat
  nindirectsyms : Nat
  extreloff : Nat
  nextrel : Nat
  locreloff : Nat
  nlocrel : Nat
deriving DecidableEq, Repr

/-- Rust `struct LcStr`. -/
structure LcStr where
  offset : Nat
deriving DecidableEq, Repr

/-- Rust `struct LcLoadDylinker`. -/
structure LcLoadDylinker where
  name : LcStr
deriving DecidableEq, Repr

/-- Rust `struct LcUuid`: 16 raw bytes. -/
structure LcUuid where
  uuid : List Nat
deriving DecidableEq, Repr

/-- Rust `struct LcVersionMinOS`: version and sdk u32 fields. -/
structure LcVersionMinOS where
  version : Nat
  sdk : Nat
deriving DecidableEq, Repr

/-- Rust `struct LcSourceVersion`: one packed u64. -/
structure LcSourceVersion where
  version : Nat
deriving DecidableEq, Repr

/-- Rust `struct Section32`: two 16-byte names then nine u32 fields (68 bytes). -/
structure Section32 where
  sectname : List Nat
  segname : List Nat
  addr : Nat
  size : Nat
  offset : Nat
  align : Nat
  reloff : Nat
  nreloc : Nat
  flags : Nat
  reserved1 : Nat
  reserved2 : Nat
deriving DecidableEq, Repr

/-- Rust `struct Section64`: two 16-byte names, u64 addr and size, eight u32
fields (80 bytes). -/
structure Section64 where
  sectname : List Nat
  segname : List Nat
  addr : Nat
  size : Nat
  offset : Nat
  align : Nat
  reloff : Nat
  nreloc : Nat
  flags : Nat
  reserved1 : Nat
  reserved2 : Nat
  reserved3 : Nat
deriving DecidableEq, Repr

/-- Rust `enum LC` of `macho.rs`: one constructor per decoded record form, a
segment carrying its section descriptors paired with their file bytes. -/
inductive LC where
  | Segment32 (c : LoadCommand LcSegment32) (sections : List (Section32 × List Nat))
  | Symtab (c : LoadCommand LcSymtab)
  | UnixThread (c : LoadCommand LcUnixThreadHead) (state : ThreadState)
  | DySymtab (c : LoadCommand LcDySymtab)
  | LoadDylinker (c : LoadCommand LcLoadDylinker) (name : List Nat)
  | Segment64 (c : LoadCommand LcSegment64) (sections : List (Section64 × List Nat))
  | Uuid (c : LoadCommand LcUuid)
  | VersionMinOS (c : LoadCommand LcVersionMinOS)
  | SourceVersion (c : LoadCommand LcSourceVersion)
deriving DecidableEq, Repr

/-- Rust `struct MachO`: the decoded image. -/
structure MachO where
  header : Header
  loads : List LC
deriving DecidableEq, Repr

/-- The closure tested by `MachO::is_dynamic`: a record is dynamic when it
is a `DySymtab` or a `LoadDylinker`. -/
def isDynLC : LC → Bool
  | .DySymtab _ => true
  | .LoadDylinker _ _ => true
  | _ => false

/-- Method `MachO::is_dynamic` of `macho.rs`. -/
def MachO.is_dynamic (m : MachO) : Bool :=
  m.loads.any isDynLC

end Macho

namespace Aout9

/-- The `magic!` macro of `aout9.rs`: `(f) | ((((4*b)+0)*b)+7)`. -/
def magicOf (f b : Nat) : Nat :=
  f ||| ((4 * b + 0) * b + 7)

/-- Value of `Magic::I` (intel 386), the only tag `to_aout` emits. -/
def Magic_I : Nat := magicOf 0 11

/-- The a.out `struct Header` of `aout9.rs`: eight u32 fields. -/
structure Header where
  magic : Nat
  text : Nat
  data : Nat
  bss : Nat
  syms : Nat
  entry : Nat
  spsz : Nat
  pcsz : Nat
deriving DecidableEq, Repr

/-- The eight header fields in declaration order, as `write_to` walks the
packed struct as an array of u32. -/
def Header.words (h : Header) : List Nat :=
  [h.magic, h.text, h.data, h.bss, h.syms, h.entry, h.spsz, h.pcsz]

/-- Rust `struct AOut9`: the target image built by `to_aout`.  `magic` holds
the numeric value of the `Magic` enum variant. -/
structure AOut9 where
  magic : Nat
  text : List Nat
  data : List Nat
  bss : Nat
  entry : Nat
deriving DecidableEq, Repr

/-- The header value `AOut9::write_to` builds: each field is the `as u32`
truncation the source performs, `entry` gains the fixed load base
`0x1000` (u32 addition, hence the outer truncation), and the symbol and
PC-table sizes are written as zero. -/
def AOut9.header (a : AOut9) : Header :=
  { magic := a.magic % 2 ^ 32
    text := a.text.length % 2 ^ 32
    data := a.data.length % 2 ^ 32
    bss := a.bss % 2 ^ 32
    syms := 0
    entry := (a.entry % 2 ^ 32 + 0x1000) % 2 ^ 32
    spsz := 0
    pcsz := 0 }

/-- Method `AOut9::write_to`: the eight header words big-endian, then the text
bytes, then the data bytes. -/
def AOut9.write_to (a : AOut9) : List Nat :=
  (a.header.words.map be32).flatten ++ a.text ++ a.data

end Aout9

open Macho Aout9

/-- Rust `enum Error` of `main.rs`. -/
inductive Error where
  | TooShort
  | UnknownMagic (v : Nat)
  | SizeMismatch
  | UnrecognizedSegment (i : Nat) (tag : Nat)
  | UnrecognizedThreadState (flavor : Nat) (count : Nat)
  | DynamicUnsupported
deriving DecidableEq, Repr

/-- Outcome of a decoding step: a value, an `Err` from the `Error`
taxonomy, or a crash — the panic of an out-of-bounds slice or the
undefined behaviour of `reinterpret_copy` on a too-short slice. -/
inductive DResult (α : Type) where
  | ok (val : α)
  | err (e : Error)
  | crash
deriving DecidableEq, Repr

/-- Functorial action on the `ok` constructor. -/
def DResult.map {α β : Type} (f : α → β) : DResult α → DResult β
  | .ok a => .ok (f a)
  | .err e => .err e
  | .crash => .crash

/-- Rust's `Result<α, Error>`, the type of `to_aout`. -/
inductive RResult (α : Type) where
  | ok (val : α)
  | err (e : Error)
deriving DecidableEq, Repr

/-- Function `load` of `main.rs`: `file[off..off+siz].to_owned()`.  `none` models
the panic of an out-of-range slice; the source never truncates. -/
def load (file : List Nat) (offset size : Nat) : Option (List Nat) :=
  readBytes file offset size

/-- Parse a `LoadCommandHead` from the head of a byte slice. -/
def parseLoadCommandHead (b : List Nat) : LoadCommandHead :=
  { cmd := le32 b, cmdsize := le32 (b.drop 4) }

/-- Parse a `LoadCommand<LcSegment32>` (56 bytes). -/
def parseLcSegment32 (b : List Nat) : LoadCommand LcSegment32 :=
  { head := parseLoadCommandHead b
    body :=
      { segname := (b.drop 8).take 16
        vmaddr := le32 (b.drop 24)
        vmsize := le32 (b.drop 28)
        fileoff := le32 (b.drop 32)
        filesize := le32 (b.drop 36)
        maxprot := le32 (b.drop 40)
        initprot := le32 (b.drop 44)
        nsects := le32 (b.drop 48)
        flags := le32 (b.drop 52) } }

/-- Parse a `LoadCommand<LcSegment64>` (72 bytes). -/
def parseLcSegment64 (b : List Nat) : LoadCommand LcSegment64 :=
  { head := parseLoadCommandHead b
    body :=
      { segname := (b.drop 8).take 16
        vmaddr := le64 (b.drop 24)
        vmsize := le64 (b.drop 32)
        fileoff := le64 (b.drop 40)
        filesize := le64 (b.drop 48)
        maxprot := le32 (b.drop 56)
        initprot := le32 (b.drop 60)
        nsects := le32 (b.drop 64)
        flags := le32 (b.drop 68) } }

/-- Parse a `Section32` descriptor (68 bytes). -/
def parseSection32 (b : List Nat) : Section32 :=
  { sectname := b.take 16
    segname := (b.drop 16).take 16
    addr := le32 (b.drop 32)
    size := le32 (b.drop 36)
    offset := le32 (b.drop 40)
    align := le32 (b.drop 44)
    reloff := le32 (b.drop 48)
    nreloc := le32 (b.drop 52)
    flags := le32 (b.drop 56)
    reserved1 := le32 (b.drop 60)
    reserved2 := le32 (b.drop 64) }

/-- Parse a `Section64` descriptor (80 bytes). -/
def parseSection64 (b : List Nat) : Section64 :=
  { sectname := b.take 16
    segname := (b.drop 16).take 16
    addr := le64 (b.drop 32)
    size := le64 (b.drop 40)
    offset := le32 (b.drop 48)
    align := le32 (b.drop 52)
    reloff := le32 (b.drop 56)
    nreloc := le32 (b.drop 60)
    flags := le32 (b.drop 64)
    reserved1 := le32 (b.drop 68)
    reserved2 := le32 (b.drop 72)
    reserved3 := le32 (b.drop 76) }

/-- Parse a `LoadCommand<LcSymtab>` (24 bytes). -/
def parseLcSymtab (b : List Nat) : LoadCommand LcSymtab :=
  { head := parseLoadCommandHead b
    body :=
      { symoff := le32 (b.drop 8)
        nsyms := le32 (b.drop 12)
        stroff := le32 (b.drop 16)
        strsize := le32 (b.drop 20) } }

/-- Parse a `LoadCommand<LcDySymtab>` (80 bytes). -/
def parseLcDySymtab (b : List Nat) : LoadCommand LcDySymtab :=
  { head := parseLoadCommandHead b
    body :=
      { ilocalsym := le32 (b.drop 8)
        nlocalsym := le32 (b.drop 12)
        iextdefsym := le32 (b.drop 16)
        nextdefsym := le32 (b.drop 20)
        iundefsym := le32 (b.drop 24)
        nundefsym := le32 (b.drop 28)
        tocoff := le32 (b.drop 32)
        ntoc := le32 (b.drop 36)
        modtaboff := le32 (b.drop 40)
        nmodtab := le32 (b.drop 44)
        extrefsymoff := le32 (b.drop 48)
        nextrefsyms := le32 (b.drop 52)
        indirectsymoff := le32 (b.drop 56)
        nindirectsyms := le32 (b.drop 60)
        extreloff := le32 (b.drop 64)
        nextrel := le32 (b.drop 68)
        locreloff := le32 (b.drop 72)
        nlocrel := le32 (b.drop 76) } }

/-- Parse a `LoadCommand<LcUuid>` (24 bytes). -/
def parseLcUuid (b : List Nat) : LoadCommand LcUuid :=
  { head := parseLoadCommandHead b
    body := { uuid := (b.drop 8).take 16 } }

/-- Parse a `LoadCommand<LcVersionMinOS>` (16 bytes). -/
def parseLcVersionMinOS (b : List Nat) : LoadCommand LcVersionMinOS :=
  { head := parseLoadCommandHead b
    body := { version := le32 (b.drop 8), sdk := le32 (b.drop 12) } }

/-- Parse a `LoadCommand<LcSourceVersion>` (16 bytes). -/
def parseLcSourceVersion (b : List Nat) : LoadCommand LcSourceVersion :=
  { head := parseLoadCommandHead b
    body := { version := le64 (b.drop 8) } }

/-- Parse a `LoadCommand<LcUnixThreadHead>` (16 bytes). -/
def parseLcUnixThreadHead (b : List Nat) : LoadCommand LcUnixThreadHead :=
  { head := parseLoadCommandHead b
    body := { flavor := le32 (b.drop 8), count := le32 (b.drop 12) } }

/-- Parse the Mach-O `Header` from its 28 bytes. -/
def parseHeader (b : List Nat) : Macho.Header :=
  { magic := le32 b
    cputype := le32 (b.drop 4)
    cpusubtype := le32 (b.drop 8)
    filetype := le32 (b.drop 12)
    ncmds := le32 (b.drop 16)
    sizeofcmds := le32 (b.drop 20)
    flags := le32 (b.drop 24) }

/-- One section of a `Segment32`: read the descriptor at `pos`, then
`load` its file bytes by its `(offset, size)` pair. -/
def readSection32At (file : List Nat) (pos : Nat) : Option (Section32 × List Nat) :=
  match readBytes file pos 68 with
  | none => none
  | some sb =>
    let sect := parseSection32 sb
    match load file sect.offset sect.size with
    | none => none
    | some d => some (sect, d)

/-- The `for j in range(0, nsects)` loop of the `Segment32` arm: section
descriptors are consecutive 68-byte records starting at `base`. -/
def readSections32 (file : List Nat) (base : Nat) : Nat → Option (List (Section32 × List Nat))
  | 0 => some []
  | n + 1 =>
    match readSection32At file base with
    | none => none
    | some s =>
      match readSections32 file (base + 68) n with
      | none => none
      | some rest => some (s :: rest)

/-- One section of a `Segment64` (80-byte descriptor). -/
def readSection64At (file : List Nat) (pos : Nat) : Option (Section64 × List Nat) :=
  match readBytes file pos 80 with
  | none => none
  | some sb =>
    let sect := parseSection64 sb
    match load file sect.offset sect.size with
    | none => none
    | some d => some (sect, d)

/-- The section loop of the `Segment64` arm. -/
def readSections64 (file : List Nat) (base : Nat) : Nat → Option (List (Section64 × List Nat))
  | 0 => some []
  | n + 1 =>
    match readSection64At file base with
    | none => none
    | some s =>
      match readSections64 file (base + 80) n with
      | none => none
      | some rest => some (s :: rest)

/-- The `Segment32` arm of `decode_macho`: read the 56-byte command, check
`est_size = lc_size + section_size * nsects` against the declared size
(`SizeMismatch` on failure), then read the sections. -/
def decodeSegment32Arm (file : List Nat) (offset sz : Nat) : DResult (LC × Nat) :=
  match readBytes file offset 56 with
  | none => .crash
  | some cb =>
    let lc := parseLcSegment32 cb
    if 56 + 68 * lc.body.nsects ≠ sz then .err .SizeMismatch
    else
      match readSections32 file (offset + 56) lc.body.nsects with
      | none => .crash
      | some sections => .ok (.Segment32 lc sections, sz)

/-- The `Segment64` arm: 72-byte command, 80-byte sections. -/
def decodeSegment64Arm (file : List Nat) (offset sz : Nat) : DResult (LC × Nat) :=
  match readBytes file offset 72 with
  | none => .crash
  | some cb =>
    let lc := parseLcSegment64 cb
    if 72 + 80 * lc.body.nsects ≠ sz then .err .SizeMismatch
    else
      match readSections64 file (offset + 72) lc.body.nsects with
      | none => .crash
      | some sections => .ok (.Segment64 lc sections, sz)

/-- The `UnixThread` arm: read the 16-byte command, then dispatch on the
`(flavor, count)` pair — `(1, 16)` reads 16 u32 registers, `(4, 42)`
reads 21 u64 registers, anything else is `UnrecognizedThreadState`. -/
def decodeUnixThreadArm (file : List Nat) (offset sz : Nat) : DResult (LC × Nat) :=
  match readBytes file offset 16 with
  | none => .crash
  | some b =>
    let lc := parseLcUnixThreadHead b
    if lc.body.flavor = ThreadStateFlavorX86 ∧ lc.body.count = 16 then
      match readBytes file (offset + 16) 64 with
      | none => .crash
      | some tsb => .ok (.UnixThread lc (.ThreadStateX86 (u32sOf tsb 16)), sz)
    else if lc.body.flavor = ThreadStateFlavorX86_64 ∧ lc.body.count = 42 then
      match readBytes file (offset + 16) 168 with
      | none => .crash
      | some tsb => .ok (.UnixThread lc (.ThreadStateX86_64 (u64sOf tsb 21)), sz)
    else .err (.UnrecognizedThreadState lc.body.flavor lc.body.count)

/-- One iteration of the record loop of `decode_macho`: read the record
head at `offset`, dispatch on its tag (`i` is the loop index echoed in
`UnrecognizedSegment`), and return the decoded record together with the
declared size by which the cursor then advances. -/
def decodeOne (file : List Nat) (offset i : Nat) : DResult (LC × Nat) :=
  match readBytes file offset 8 with
  | none => .crash
  | some hb =>
    let lch := parseLoadCommandHead hb
    let sz := lch.cmdsize
    if lch.cmd = tagSegment32 then decodeSegment32Arm file offset sz
    else if lch.cmd = tagSegment64 then decodeSegment64Arm file offset sz
    else if lch.cmd = tagSymtab then
      match readBytes file offset 24 with
      | none => .crash
      | some b => .ok (.Symtab (parseLcSymtab b), sz)
    else if lch.cmd = tagDySymtab then
      match readBytes file offset 80 with
      | none => .crash
      | some b => .ok (.DySymtab (parseLcDySymtab b), sz)
    else if lch.cmd = tagUuid then
      match readBytes file offset 24 with
      | none => .crash
      | some b => .ok (.Uuid (parseLcUuid b), sz)
    else if lch.cmd = tagVersionMinOS then
      match readBytes file offset 16 with
      | none => .crash
      | some b => .ok (.VersionMinOS (parseLcVersionMinOS b), sz)
    else if lch.cmd = tagSourceVersion then
      match readBytes file offset 16 with
      | none => .crash
      | some b => .ok (.SourceVersion (parseLcSourceVersion b), sz)
    else if lch.cmd = tagUnixThread then decodeUnixThreadArm file offset sz
    else .err (.UnrecognizedSegment i lch.cmd)

/-- The `for i in range(0, ncmds)` loop of `decode_macho`: decode one
record at the cursor, then advance the cursor by that record's declared
`cmdsize` and continue with the next index. -/
def decodeCmds (file : List Nat) : Nat → Nat → Nat → DResult (List LC)
  | _, _, 0 => .ok []
  | offset, i, n + 1 =>
    match decodeOne file offset i with
    | .ok (lc, sz) => DResult.map (lc :: ·) (decodeCmds file (offset + sz) (i + 1) n)
    | .err e => .err e
    | .crash => .crash

/-- Function `decode_macho` of `main.rs`: require 4 bytes, read the 28-byte header
(out of bounds when the buffer is shorter — the source's
`reinterpret_copy` UB), resolve the header size from the magic, require
`header_size + sizeofcmds` bytes, then decode `ncmds` records starting
right after the header. -/
def decode_macho (file : List Nat) : DResult MachO :=
  if file.length < 4 then .err .TooShort
  else
    match readBytes file 0 28 with
    | none => .crash
    | some hb =>
      let h := parseHeader hb
      if h.magic = M32 then
        if file.length < headerSize + h.sizeofcmds then .err .TooShort
        else DResult.map (fun l => ⟨h, l⟩) (decodeCmds file headerSize 0 h.ncmds)
      else if h.magic = M64 then
        if file.length < header64Size + h.sizeofcmds then .err .TooShort
        else DResult.map (fun l => ⟨h, l⟩) (decodeCmds file header64Size 0 h.ncmds)
      else .err (.UnknownMagic h.magic)

/-- The first six bytes of the instruction-segment name `"__TEXT"`. -/
def nameTEXT : List Nat := [0x5f, 0x5f, 0x54, 0x45, 0x58, 0x54]

/-- The first six bytes of the data-segment name `"__DATA"`. -/
def nameDATA : List Nat := [0x5f, 0x5f, 0x44, 0x41, 0x54, 0x41]

/-- The first five bytes of the uninitialized-data section name `"__bss"`. -/
def nameBss : List Nat := [0x5f, 0x5f, 0x62, 0x73, 0x73]

/-- The `filter_map` of `to_aout`: keep only `Segment32` records. -/
def seg32s (loads : List LC) : List (LoadCommand LcSegment32 × List (Section32 × List Nat)) :=
  loads.filterMap fun lc =>
    match lc with
    | .Segment32 c sections => some (c, sections)
    | _ => none

/-- The text collection of `to_aout`: bytes of every section under every
32-bit segment whose name starts with `"__TEXT"`, record order then
section order. -/
def machoText (m : MachO) : List Nat :=
  ((((seg32s m.loads).filter fun p => p.1.body.segname.take 6 == nameTEXT).map
    fun p => (p.2.map Prod.snd).flatten)).flatten

/-- The data collection of `to_aout`: same for `"__DATA"` segments. -/
def machoData (m : MachO) : List Nat :=
  ((((seg32s m.loads).filter fun p => p.1.body.segname.take 6 == nameDATA).map
    fun p => (p.2.map Prod.snd).flatten)).flatten

/-- The bss sum of `to_aout`: declared `size` of every section whose name
starts with `"__bss"` inside `"__DATA"` 32-bit segments. -/
def machoBss (m : MachO) : Nat :=
  (((((seg32s m.loads).filter fun p => p.1.body.segname.take 6 == nameDATA).map
    Prod.snd).flatten.filter fun s => s.1.sectname.take 5 == nameBss).map
    fun s => s.1.size).sum

/-- Function `to_aout` of `main.rs`: reject dynamic images, else build the target
image with the intel 386 tag and the fixed entry offset `0x20`. -/
def to_aout (m : MachO) : RResult AOut9 :=
  if m.is_dynamic then .err .DynamicUnsupported
  else
    .ok
      { magic := Magic_I
        text := machoText m
        data := machoData m
        bss := machoBss m
        entry := 0x20 }

/-! ### Auxiliary definitions for the claims -/

/-- The head common to every record variant. -/
def Macho.LC.headOf : LC → LoadCommandHead
  | .Segment32 c _ => c.head
  | .Symtab c => c.head
  | .UnixThread c _ => c.head
  | .DySymtab c => c.head
  | .LoadDylinker c _ => c.head
  | .Segment64 c _ => c.head
  | .Uuid c => c.head
  | .VersionMinOS c => c.head
  | .SourceVersion c => c.head

/-- Sum of the declared sizes of a list of decoded records. -/
def recordSizesSum (lcs : List LC) : Nat :=
  (lcs.map fun lc => lc.headOf.cmdsize).sum

/-- The nine record tags declared in `macho.rs`. -/
def nineTags : List Nat :=
  [tagSegment32, tagSymtab, tagUnixThread, tagDySymtab, tagLoadDylinker,
   tagSegment64, tagUuid, tagVersionMinOS, tagSourceVersion]

/-- Every section of a segment record lies inside the buffer and carries
exactly its declared number of bytes. -/
def sectionsInBounds (file : List Nat) : LC → Prop
  | .Segment32 _ sections =>
      ∀ s d, (s, d) ∈ sections → s.offset + s.size ≤ file.length ∧ d.length = s.size
  | .Segment64 _ sections =>
      ∀ s d, (s, d) ∈ sections → s.offset + s.size ≤ file.length ∧ d.length = s.size
  | _ => True

/-- Little-endian 4-byte encoding, used to build concrete test buffers. -/
def le4 (n : Nat) : List Nat :=
  [n % 2 ^ 8, n / 2 ^ 8 % 2 ^ 8, n / 2 ^ 16 % 2 ^ 8, n / 2 ^ 24 % 2 ^ 8]

/-- Pad a name to the 16 bytes of a `U8N16` field. -/
def pad16 (l : List Nat) : List Nat :=
  l ++ List.replicate (16 - l.length) 0

/-- The bytes of the section name `"__text"`. -/
def nametext : List Nat := [0x5f, 0x5f, 0x74, 0x65, 0x78, 0x74]

/-- A well-formed 156-byte Mach-O: 28-byte 32-bit header, one `__TEXT`
segment with one section of 4 bytes stored at file offset 152. -/
def okBuf : List Nat :=
  le4 0xfeedface ++ le4 7 ++ le4 3 ++ le4 2 ++ le4 1 ++ le4 124 ++ le4 1
    ++ le4 1 ++ le4 124 ++ pad16 nameTEXT ++ le4 0 ++ le4 0 ++ le4 0 ++ le4 0
    ++ le4 0 ++ le4 0 ++ le4 1 ++ le4 0
    ++ pad16 nametext ++ pad16 nameTEXT ++ le4 0 ++ le4 4 ++ le4 152 ++ le4 0
    ++ le4 0 ++ le4 0 ++ le4 0 ++ le4 0 ++ le4 0
    ++ [11, 22, 33, 44]

/-- The section descriptor inside `okImg`. -/
def okSect : Section32 :=
  ⟨pad16 nametext, pad16 nameTEXT, 0, 4, 152, 0, 0, 0, 0, 0, 0⟩

/-- The segment command inside `okImg`. -/
def okCmd : LoadCommand LcSegment32 :=
  ⟨⟨1, 124⟩, ⟨pad16 nameTEXT, 0, 0, 0, 0, 0, 0, 1, 0⟩⟩

/-- The image `decode_macho` produces from `okBuf`. -/
def okImg : MachO :=
  { header := ⟨0xfeedface, 7, 3, 2, 1, 124, 1⟩
    loads := [.Segment32 okCmd [(okSect, [11, 22, 33, 44])]] }

/-- Like `okBuf` but the single section declares file range `[1000, 1010)`,
far beyond the 152-byte buffer. -/
def crashBuf : List Nat :=
  le4 0xfeedface ++ le4 7 ++ le4 3 ++ le4 2 ++ le4 1 ++ le4 124 ++ le4 1
    ++ le4 1 ++ le4 124 ++ pad16 nameTEXT ++ le4 0 ++ le4 0 ++ le4 0 ++ le4 0
    ++ le4 0 ++ le4 0 ++ le4 1 ++ le4 0
    ++ pad16 nametext ++ pad16 nameTEXT ++ le4 0 ++ le4 10 ++ le4 1000 ++ le4 0
    ++ le4 0 ++ le4 0 ++ le4 0 ++ le4 0 ++ le4 0

/-- A 32-byte buffer whose header declares `ncmds = 0` but
`sizeofcmds = 4`: zero records, yet a 4-byte records region. -/
def c7buf : List Nat :=
  le4 0xfeedface ++ le4 7 ++ le4 3 ++ le4 2 ++ le4 0 ++ le4 4 ++ le4 1 ++ [0, 0, 0, 0]

/-- The image `decode_macho` produces from `c7buf`. -/
def c7img : MachO :=
  { header := ⟨0xfeedface, 7, 3, 2, 0, 4, 1⟩, loads := [] }

/-- A 24-byte stand-alone `Symtab` record declaring size 99. -/
def c7wbuf : List Nat :=
  [2, 0, 0, 0, 99, 0, 0, 0] ++ List.replicate 16 0

/-- The record decoded from `c7wbuf`. -/
def c7wlc : LC := .Symtab ⟨⟨2, 99⟩, ⟨0, 0, 0, 0⟩⟩

/-- An 8-byte record head carrying the unrecognized tag 3. -/
def c8wbuf : List Nat := [3, 0, 0, 0, 16, 0, 0, 0]

/-- A 56-byte `Segment32` record with `nsects = 0` but declared size 60:
the computed size 56 disagrees. -/
def c6wbuf : List Nat :=
  [1, 0, 0, 0, 60, 0, 0, 0] ++ List.replicate 48 0

/-- An all-zero Mach-O header value, for aggregation-level tests (the
aggregator never looks at the header). -/
def hdr0 : Macho.Header := ⟨0, 0, 0, 0, 0, 0, 0⟩

/-- A segment command named `"__TEXT"`. -/
def cT : LoadCommand LcSegment32 := ⟨⟨1, 124⟩, ⟨pad16 nameTEXT, 0, 0, 0, 0, 0, 0, 2, 0⟩⟩

/-- A segment command named `"__DATA"`. -/
def cD : LoadCommand LcSegment32 := ⟨⟨1, 124⟩, ⟨pad16 nameDATA, 0, 0, 0, 0, 0, 0, 2, 0⟩⟩

/-- A segment command named `"__TEXTX"`: not the segment name, merely an
extension of it. -/
def cTX : LoadCommand LcSegment32 :=
  ⟨⟨1, 124⟩, ⟨pad16 (nameTEXT ++ [0x58]), 0, 0, 0, 0, 0, 0, 1, 0⟩⟩

/-- A section named `"__bss"` declaring size 7 with no file bytes. -/
def sBss : Section32 := ⟨pad16 nameBss, pad16 nameDATA, 0, 7, 0, 0, 0, 0, 0, 0, 0⟩

/-- A `DySymtab` record with zeroed fields. -/
def dysLC : LC :=
  .DySymtab ⟨⟨0xb, 80⟩, ⟨0, 0, 0, 0, 0, 0, 0, 0, 0, 0, 0, 0, 0, 0, 0, 0, 0, 0⟩⟩

/-- An image containing one dynamic-symbol-table record. -/
def mDyn : MachO := ⟨⟨0xfeedface, 7, 3, 2, 1, 80, 1⟩, [dysLC]⟩

/-- An image with no records at all. -/
def mEmpty : MachO := ⟨⟨0xfeedface, 7, 3, 2, 0, 0, 1⟩, []⟩

/-! ### Helper lemmas -/

theorem decodeSegment32Arm_ok_size {file : List Nat} {off s : Nat} {lc : LC} {sz : Nat}
    (h : decodeSegment32Arm file off s = .ok (lc, sz)) : sz = s := by
  unfold decodeSegment32Arm at h
  split at h
  · exact absurd h (by simp)
  · dsimp only at h
    split at h
    · exact absurd h (by simp)
    · split at h
      · exact absurd h (by simp)
      · simp only [DResult.ok.injEq, Prod.mk.injEq] at h
        exact h.2.symm

theorem decodeSegment64Arm_ok_size {file : List Nat} {off s : Nat} {lc : LC} {sz : Nat}
    (h : decodeSegment64Arm file off s = .ok (lc, sz)) : sz = s := by
  unfold decodeSegment64Arm at h
  split at h
  · exact absurd h (by simp)
  · dsimp only at h
    split at h
    · exact absurd h (by simp)
    · split at h
      · exact absurd h (by simp)
      · simp only [DResult.ok.injEq, Prod.mk.injEq] at h
        exact h.2.symm

theorem decodeUnixThreadArm_ok_size {file : List Nat} {off s : Nat} {lc : LC} {sz : Nat}
    (h : decodeUnixThreadArm file off s = .ok (lc, sz)) : sz = s := by
  unfold decodeUnixThreadArm at h
  split at h
  · exact absurd h (by simp)
  · dsimp only at h
    split at h
    · split at h
      · exact absurd h (by simp)
      · simp only [DResult.ok.injEq, Prod.mk.injEq] at h
        exact h.2.symm
    · split at h
      · split at h
        · exact absurd h (by simp)
        · simp only [DResult.ok.injEq, Prod.mk.injEq] at h
          exact h.2.symm
      · exact absurd h (by simp)

theorem readBytes_some {file l : List Nat} {off n : Nat}
    (h : readBytes file off n = some l) : off + n ≤ file.length ∧ l.length = n := by
  unfold readBytes at h
  split at h
  · rename_i hle
    injection h with h'
    subst h'
    refine ⟨hle, ?_⟩
    simp only [List.length_take, List.length_drop]
    omega
  · cases h

theorem readSection32At_some {file : List Nat} {pos : Nat} {s : Section32} {d : List Nat}
    (h : readSection32At file pos = some (s, d)) :
    s.offset + s.size ≤ file.length ∧ d.length = s.size := by
  unfold readSection32At at h
  split at h
  · cases h
  · dsimp only at h
    split at h
    · cases h
    · rename_i d' hload
      injection h with h'
      obtain ⟨h1, h2⟩ := Prod.mk.injEq .. |>.mp h'
      subst h1
      subst h2
      exact readBytes_some hload

theorem readSection64At_some {file : List Nat} {pos : Nat} {s : Section64} {d : List Nat}
    (h : readSection64At file pos = some (s, d)) :
    s.offset + s.size ≤ file.length ∧ d.length = s.size := by
  unfold readSection64At at h
  split at h
  · cases h
  · dsimp only at h
    split at h
    · cases h
    · rename_i d' hload
      injection h with h'
      obtain ⟨h1, h2⟩ := Prod.mk.injEq .. |>.mp h'
      subst h1
      subst h2
      exact readBytes_some hload

theorem readSections32_mem {file : List Nat} :
    ∀ (n base : Nat) (sections : List (Section32 × List Nat)),
      readSections32 file base n = some sections →
      ∀ s d, (s, d) ∈ sections → s.offset + s.size ≤ file.length ∧ d.length = s.size := by
  intro n
  induction n with
  | zero =>
    intro base sections h s d hm
    unfold readSections32 at h
    injection h with h'
    subst h'
    cases hm
  | succ n ih =>
    intro base sections h s d hm
    unfold readSections32 at h
    split at h
    · cases h
    · rename_i p hp
      split at h
      · cases h
      · rename_i rest hrest
        injection h with h'
        subst h'
        rcases List.mem_cons.mp hm with heq | hmem
        · subst heq
          exact readSection32At_some hp
        · exact ih (base + 68) rest hrest s d hmem

theorem readSections64_mem {file : List Nat} :
    ∀ (n base : Nat) (sections : List (Section64 × List Nat)),
      readSections64 file base n = some sections →
      ∀ s d, (s, d) ∈ sections → s.offset + s.size ≤ file.length ∧ d.length = s.size := by
  intro n
  induction n with
  | zero =>
    intro base sections h s d hm
    unfold readSections64 at h
    injection h with h'
    subst h'
    cases hm
  | succ n ih =>
    intro base sections h s d hm
    unfold readSections64 at h
    split at h
    · cases h
    · rename_i p hp
      split at h
      · cases h
      · rename_i rest hrest
        injection h with h'
        subst h'
        rcases List.mem_cons.mp hm with heq | hmem
        · subst heq
          exact readSection64At_some hp
        · exact ih (base + 80) rest hrest s d hmem

theorem decodeOne_sections {file : List Nat} {off i : Nat} {lc : LC} {sz : Nat}
    (h : decodeOne file off i = .ok (lc, sz)) : sectionsInBounds file lc := by
  simp only [decodeOne, parseLoadCommandHead] at h
  split at h
  · cases h
  · split at h
    · -- Segment32 arm
      unfold decodeSegment32Arm at h
      split at h
      · cases h
      · dsimp only at h
        split at h
        · cases h
        · split at h
          · cases h
          · rename_i sections hsec
            injection h with h'
            obtain ⟨h1, _⟩ := Prod.mk.injEq .. |>.mp h'
            subst h1
            intro s d hm
            exact readSections32_mem _ _ _ hsec s d hm
    · split at h
      · -- Segment64 arm
        unfold decodeSegment64Arm at h
        split at h
        · cases h
        · dsimp only at h
          split at h
          · cases h
          · split at h
            · cases h
            · rename_i sections hsec
              injection h with h'
              obtain ⟨h1, _⟩ := Prod.mk.injEq .. |>.mp h'
              subst h1
              intro s d hm
              exact readSections64_mem _ _ _ hsec s d hm
      · split at h
        · split at h
          · cases h
          · injection h with h'
            obtain ⟨h1, _⟩ := Prod.mk.injEq .. |>.mp h'
            subst h1
            trivial
        · split at h
          · split at h
            · cases h
            · injection h with h'
              obtain ⟨h1, _⟩ := Prod.mk.injEq .. |>.mp h'
              subst h1
              trivial
          · split at h
            · split at h
              · cases h
              · injection h with h'
                obtain ⟨h1, _⟩ := Prod.mk.injEq .. |>.mp h'
                subst h1
                trivial
            · split at h
              · split at h
                · cases h
                · injection h with h'
                  obtain ⟨h1, _⟩ := Prod.mk.injEq .. |>.mp h'
                  subst h1
                  trivial
              · split at h
                · split at h
                  · cases h
                  · injection h with h'
                    obtain ⟨h1, _⟩ := Prod.mk.injEq .. |>.mp h'
                    subst h1
                    trivial
                · split at h
                  · -- UnixThread arm
                    unfold decodeUnixThreadArm at h
                    split at h
                    · cases h
                    · dsimp only at h
                      split at h
                      · split at h
                        · cases h
                        · injection h with h'
                          obtain ⟨h1, _⟩ := Prod.mk.injEq .. |>.mp h'
                          subst h1
                          trivial
                      · split at h
                        · split at h
                          · cases h
                          · injection h with h'
                            obtain ⟨h1, _⟩ := Prod.mk.injEq .. |>.mp h'
                            subst h1
                            trivial
                        · cases h
                  · cases h

theorem decodeCmds_mem {file : List Nat} :
    ∀ (n offset i : Nat) (lcs : List LC),
      decodeCmds file offset i n = .ok lcs →
      ∀ lc ∈ lcs, sectionsInBounds file lc := by
  intro n
  induction n with
  | zero =>
    intro offset i lcs h lc hm
    unfold decodeCmds at h
    injection h with h'
    subst h'
    cases hm
  | succ n ih =>
    intro offset i lcs h lc hm
    unfold decodeCmds at h
    split at h
    · rename_i lc' sz hone
      cases hrec : decodeCmds file (offset + sz) (i + 1) n with
      | ok rest =>
        rw [hrec] at h
        simp only [DResult.map] at h
        injection h with h'
        subst h'
        rcases List.mem_cons.mp hm with heq | hmem
        · subst heq
          exact decodeOne_sections hone
        · exact ih (offset + sz) (i + 1) rest hrec lc hmem
      | err e =>
        rw [hrec] at h
        cases h
      | crash =>
        rw [hrec] at h
        cases h
    · cases h
    · cases h

/-! ### Claim C1 -/

set_option maxRecDepth 4096 in
/-- Claim C1, counterexample: a 27-byte buffer is shorter than the
28-byte minimal header, yet `decode_macho` does not fail with `TooShort`
before reading header fields — it performs the out-of-bounds 28-byte
header read (`reinterpret_copy` on a too-short slice), modelled as a
crash. -/
theorem c1_counterexample :
    (List.replicate 27 0).length < Macho.headerSize ∧
    decode_macho (List.replicate 27 0) = .crash ∧
    decode_macho (List.replicate 27 0) ≠ .err .TooShort := by
  decide

/-- Claim C1 as amended: only buffers shorter than 4 bytes (the magic
field) fail with `TooShort` before any field is read; a buffer of at
least 4 but fewer than 28 bytes instead causes the out-of-bounds header
read. -/
theorem c1_short_input (file : List Nat) :
    (file.length < 4 → decode_macho file = .err .TooShort) ∧
    (4 ≤ file.length → file.length < Macho.headerSize → decode_macho file = .crash) := by
  constructor
  · intro h
    simp [decode_macho, h]
  · intro h4 h28
    simp only [Macho.headerSize] at h28
    have hna : ¬ file.length < 4 := by omega
    have hrb : readBytes file 0 28 = none := by
      simp only [readBytes]
      rw [if_neg]
      omega
    simp [decode_macho, hna, hrb]

/-- Concrete instances of `c1_short_input`. -/
theorem c1_short_input_witness :
    decode_macho [0, 0, 0] = .err .TooShort ∧
    decode_macho [0, 0, 0, 0, 0] = .crash :=
  ⟨(c1_short_input [0, 0, 0]).1 (by decide),
   (c1_short_input [0, 0, 0, 0, 0]).2 (by decide) (by decide)⟩

/-! ### Claim C3 -/

/-- Claim C3: for every target image whose fields fit in 32 bits, the
encoder emits exactly eight big-endian 4-byte fields — magic tag, text
size, data size, bss size, symbol-table size 0, entry plus the load base
`0x1000`, and the two zero table sizes — followed immediately by the
text bytes and then the data bytes, with nothing in between. -/
theorem c3_layout (a : AOut9) (hm : a.magic < 2 ^ 32) (ht : a.text.length < 2 ^ 32)
    (hd : a.data.length < 2 ^ 32) (hb : a.bss < 2 ^ 32) (he : a.entry + 0x1000 < 2 ^ 32) :
    a.write_to =
      be32 a.magic ++ be32 a.text.length ++ be32 a.data.length ++ be32 a.bss ++
      be32 0 ++ be32 (a.entry + 0x1000) ++ be32 0 ++ be32 0 ++ a.text ++ a.data := by
  simp [AOut9.write_to, AOut9.header, Aout9.Header.words, List.append_assoc]
  rw [show a.magic % 4294967296 = a.magic from Nat.mod_eq_of_lt hm,
    show a.text.length % 4294967296 = a.text.length from Nat.mod_eq_of_lt ht,
    show a.data.length % 4294967296 = a.data.length from Nat.mod_eq_of_lt hd,
    show a.bss % 4294967296 = a.bss from Nat.mod_eq_of_lt hb,
    show (a.entry + 4096) % 4294967296 = a.entry + 4096 from
      Nat.mod_eq_of_lt (by simpa using he)]

/-- Concrete instance of `c3_layout`. -/
theorem c3_layout_witness :
    AOut9.write_to ⟨491, [1, 2], [3], 5, 0x20⟩ =
      be32 491 ++ be32 2 ++ be32 1 ++ be32 5 ++ be32 0 ++ be32 0x1020 ++ be32 0 ++ be32 0 ++
      [1, 2] ++ [3] := by
  have h := c3_layout ⟨491, [1, 2], [3], 5, 0x20⟩ (by decide) (by decide) (by decide)
    (by decide) (by decide)
  simpa using h

/-! ### Claim C6 -/

/-- Claim C6: when the record at the cursor is a segment whose declared
size differs from the fixed command size plus `nsects` times the section
descriptor size (56 + 68·n for 32-bit segments, 72 + 80·n for 64-bit
ones), the stream decoder stops with `SizeMismatch` and never reads a
section descriptor. -/
theorem c6_size_mismatch (file : List Nat) (offset i n : Nat) (hb : List Nat)
    (h1 : readBytes file offset 8 = some hb) :
    (le32 hb = tagSegment32 →
      ∀ cb, readBytes file offset 56 = some cb →
        56 + 68 * (parseLcSegment32 cb).body.nsects ≠ le32 (hb.drop 4) →
        decodeCmds file offset i (n + 1) = .err .SizeMismatch) ∧
    (le32 hb = tagSegment64 →
      ∀ cb, readBytes file offset 72 = some cb →
        72 + 80 * (parseLcSegment64 cb).body.nsects ≠ le32 (hb.drop 4) →
        decodeCmds file offset i (n + 1) = .err .SizeMismatch) := by
  constructor
  · intro ht cb hcb hne
    have hone : decodeOne file offset i = .err .SizeMismatch := by
      simp [decodeOne, h1, parseLoadCommandHead, ht, decodeSegment32Arm, hcb, hne]
    simp [decodeCmds, hone]
  · intro ht cb hcb hne
    have hone : decodeOne file offset i = .err .SizeMismatch := by
      simp [decodeOne, h1, parseLoadCommandHead, ht, tagSegment32, tagSegment64,
        decodeSegment64Arm, hcb, hne]
    simp [decodeCmds, hone]

/-- Concrete instance of `c6_size_mismatch`: a 32-bit segment declaring
size 60 with zero sections (computed size 56). -/
theorem c6_size_mismatch_witness :
    decodeCmds c6wbuf 0 0 1 = .err .SizeMismatch := by
  have h := (c6_size_mismatch c6wbuf 0 0 0 (c6wbuf.take 8) (by decide)).1 (by decide)
    c6wbuf (by decide) (by decide)
  simpa using h

/-! ### Claim C7 -/

/-- Claim C7, counterexample: `c7buf` declares zero records but a 4-byte
records region; decode succeeds and the sum of the decoded records'
declared sizes (0) differs from the header's `sizeofcmds` (4). -/
theorem c7_counterexample :
    decode_macho c7buf = .ok c7img ∧
    recordSizesSum c7img.loads ≠ c7img.header.sizeofcmds := by
  decide

/-- Claim C7 as amended: the record cursor advances by exactly the
declared size of the record just decoded — the next record starts at
`previous_offset + previous_declared_size` — but nothing ties the sum of
those declared sizes to the header's records-region size. -/
theorem c7_cursor (file : List Nat) (offset i n : Nat) (hb : List Nat) (lc : LC) (sz : Nat)
    (h1 : readBytes file offset 8 = some hb)
    (h2 : decodeOne file offset i = .ok (lc, sz)) :
    sz = le32 (hb.drop 4) ∧
    decodeCmds file offset i (n + 1) =
      DResult.map (lc :: ·) (decodeCmds file (offset + sz) (i + 1) n) := by
  refine ⟨?_, by simp [decodeCmds, h2]⟩
  simp only [decodeOne, h1, parseLoadCommandHead] at h2
  split at h2
  · exact decodeSegment32Arm_ok_size h2
  · split at h2
    · exact decodeSegment64Arm_ok_size h2
    · split at h2
      · split at h2 <;> simp_all
      · split at h2
        · split at h2 <;> simp_all
        · split at h2
          · split at h2 <;> simp_all
          · split at h2
            · split at h2 <;> simp_all
            · split at h2
              · split at h2 <;> simp_all
              · split at h2
                · exact decodeUnixThreadArm_ok_size h2
                · exact absurd h2 (by simp)

/-- Concrete instance of `c7_cursor`: a `Symtab` record declaring size 99
advances the cursor by 99. -/
theorem c7_cursor_witness :
    99 = le32 ((c7wbuf.take 8).drop 4) ∧
    decodeCmds c7wbuf 0 0 1 =
      DResult.map (c7wlc :: ·) (decodeCmds c7wbuf (0 + 99) 1 0) :=
  c7_cursor c7wbuf 0 0 0 (c7wbuf.take 8) c7wlc 99 (by decide) (by decide)

/-! ### Claim C8 -/

/-- Claim C8: a record head carrying a tag outside the nine declared tag
constants makes the stream decoder fail with `UnrecognizedSegment`
carrying the record index and the raw tag; the error aborts the stream,
so no record list (and hence no image) is produced. -/
theorem c8_unrecognized (file : List Nat) (offset i n : Nat) (hb : List Nat)
    (h1 : readBytes file offset 8 = some hb) (h2 : le32 hb ∉ nineTags) :
    decodeCmds file offset i (n + 1) = .err (.UnrecognizedSegment i (le32 hb)) := by
  have t1 : le32 hb ≠ tagSegment32 := fun h => h2 (by rw [h]; simp [nineTags])
  have t2 : le32 hb ≠ tagSegment64 := fun h => h2 (by rw [h]; simp [nineTags])
  have t3 : le32 hb ≠ tagSymtab := fun h => h2 (by rw [h]; simp [nineTags])
  have t4 : le32 hb ≠ tagDySymtab := fun h => h2 (by rw [h]; simp [nineTags])
  have t5 : le32 hb ≠ tagUuid := fun h => h2 (by rw [h]; simp [nineTags])
  have t6 : le32 hb ≠ tagVersionMinOS := fun h => h2 (by rw [h]; simp [nineTags])
  have t7 : le32 hb ≠ tagSourceVersion := fun h => h2 (by rw [h]; simp [nineTags])
  have t8 : le32 hb ≠ tagUnixThread := fun h => h2 (by rw [h]; simp [nineTags])
  have hone : decodeOne file offset i = .err (.UnrecognizedSegment i (le32 hb)) := by
    simp [decodeOne, h1, parseLoadCommandHead, t1, t2, t3, t4, t5, t6, t7, t8]
  simp [decodeCmds, hone]

/-- Concrete instance of `c8_unrecognized`: tag 3 at stream position 0. -/
theorem c8_unrecognized_witness :
    decodeCmds c8wbuf 0 0 1 = .err (.UnrecognizedSegment 0 3) := by
  have h := c8_unrecognized c8wbuf 0 0 0 c8wbuf (by decide) (by decide)
  simpa [c8wbuf, le32] using h

/-! ### Claim C4 -/

/-- Claim C4: aggregation is order-preserving and concatenative — an
image whose records are two instruction-named 32-bit segments, the first
with section payloads `a` and `b` and the second with payload `c`, has
text buffer exactly `a ++ b ++ c`; likewise for two data-named segments
and the data buffer. -/
theorem c4_concat (h : Macho.Header) (g1 g2 : LoadCommand LcSegment32)
    (s1 s2 s3 : Section32) (a b c : List Nat) :
    (g1.body.segname.take 6 = nameTEXT → g2.body.segname.take 6 = nameTEXT →
      machoText ⟨h, [.Segment32 g1 [(s1, a), (s2, b)], .Segment32 g2 [(s3, c)]]⟩ =
        a ++ b ++ c) ∧
    (g1.body.segname.take 6 = nameDATA → g2.body.segname.take 6 = nameDATA →
      machoData ⟨h, [.Segment32 g1 [(s1, a), (s2, b)], .Segment32 g2 [(s3, c)]]⟩ =
        a ++ b ++ c) := by
  constructor <;> intro h1 h2 <;>
    simp [machoText, machoData, seg32s, h1, h2, List.append_assoc]

/-- Concrete instance of `c4_concat`. -/
theorem c4_concat_witness :
    machoText ⟨hdr0, [.Segment32 cT [(okSect, [1]), (okSect, [2])], .Segment32 cT [(okSect, [3])]]⟩ =
      [1, 2, 3] ∧
    machoData ⟨hdr0, [.Segment32 cD [(okSect, [4]), (okSect, [5])], .Segment32 cD [(okSect, [6])]]⟩ =
      [4, 5, 6] := by
  constructor
  · have h := (c4_concat hdr0 cT cT okSect okSect okSect [1] [2] [3]).1 (by decide) (by decide)
    simpa using h
  · have h := (c4_concat hdr0 cD cD okSect okSect okSect [4] [5] [6]).2 (by decide) (by decide)
    simpa using h

/-! ### Claim C5 -/

/-- Claim C5: aggregation fails with `DynamicUnsupported` exactly when
the image holds a dynamic-symbol-table or load-dynamic-linker record
(the records `isDynLC` recognizes); on failure no target image exists in
the result, and otherwise aggregation succeeds with some target image. -/
theorem c5_dynamic (m : MachO) :
    (to_aout m = .err .DynamicUnsupported ↔ ∃ lc ∈ m.loads, isDynLC lc = true) ∧
    ((¬ ∃ lc ∈ m.loads, isDynLC lc = true) → ∃ a, to_aout m = .ok a) := by
  cases hd : m.is_dynamic with
  | true =>
    have hex : ∃ lc ∈ m.loads, isDynLC lc = true := by
      have hd' : m.loads.any isDynLC = true := hd
      exact List.any_eq_true.mp hd'
    simp [to_aout, hd, hex]
  | false =>
    have hnex : ¬ ∃ lc ∈ m.loads, isDynLC lc = true := by
      intro hex
      have : m.loads.any isDynLC = true := List.any_eq_true.mpr hex
      rw [MachO.is_dynamic] at hd
      simp [this] at hd
    simp [to_aout, hd, hnex]

/-- Concrete instances of `c5_dynamic`: an image with a `DySymtab`
record is rejected; an image with no records aggregates. -/
theorem c5_dynamic_witness :
    to_aout mDyn = .err .DynamicUnsupported ∧ (∃ a, to_aout mEmpty = .ok a) :=
  ⟨(c5_dynamic mDyn).1.mpr ⟨dysLC, by simp [mDyn], by decide⟩,
   (c5_dynamic mEmpty).2 (by simp [mEmpty])⟩

/-! ### Claim C9 -/

/-- Claim C9: a 64-bit segment record contributes nothing to
aggregation — removing it from anywhere in the record list leaves the
aggregated target image unchanged, whatever its name and sections. -/
theorem c9_segment64_ignored (h : Macho.Header) (l1 l2 : List LC)
    (c : LoadCommand LcSegment64) (sections : List (Section64 × List Nat)) :
    to_aout ⟨h, l1 ++ .Segment64 c sections :: l2⟩ = to_aout ⟨h, l1 ++ l2⟩ := by
  have hseg : seg32s (l1 ++ .Segment64 c sections :: l2) = seg32s (l1 ++ l2) := by
    simp [seg32s, List.filterMap_append]
  have hdy : (l1 ++ .Segment64 c sections :: l2).any isDynLC = (l1 ++ l2).any isDynLC := by
    simp [List.any_append, isDynLC]
  simp [to_aout, MachO.is_dynamic, machoText, machoData, machoBss, hseg, hdy]

/-! ### Claim C10 -/

/-- Claim C10: segment and section matching compares only leading bytes —
a single-segment image contributes its section's payload to the text
(resp. data) buffer exactly when the first 6 of the 16 name bytes are
`"__TEXT"` (resp. `"__DATA"`), and the section's declared size to the
bss sum exactly when additionally the first 5 bytes of the section name
are `"__bss"`. -/
theorem c10_name_matching (h : Macho.Header) (c : LoadCommand LcSegment32)
    (s : Section32) (d : List Nat)
    (_hseg : c.body.segname.length = 16) (_hsect : s.sectname.length = 16) :
    (machoText ⟨h, [.Segment32 c [(s, d)]]⟩ =
      if c.body.segname.take 6 = nameTEXT then d else []) ∧
    (machoData ⟨h, [.Segment32 c [(s, d)]]⟩ =
      if c.body.segname.take 6 = nameDATA then d else []) ∧
    (machoBss ⟨h, [.Segment32 c [(s, d)]]⟩ =
      if c.body.segname.take 6 = nameDATA ∧ s.sectname.take 5 = nameBss then s.size
      else 0) := by
  refine ⟨?_, ?_, ?_⟩
  · by_cases h1 : c.body.segname.take 6 = nameTEXT <;> simp [machoText, seg32s, h1]
  · by_cases h1 : c.body.segname.take 6 = nameDATA <;> simp [machoData, seg32s, h1]
  · by_cases h1 : c.body.segname.take 6 = nameDATA
    · by_cases h2 : s.sectname.take 5 = nameBss <;> simp [machoBss, seg32s, h1, h2]
    · simp [machoBss, seg32s, h1]

/-- Concrete instances of `c10_name_matching`: a segment named
`"__TEXTX"` still counts as the instruction segment, and a `"__bss"`
section inside a `"__DATA"` segment adds its declared size 7 to bss. -/
theorem c10_name_matching_witness :
    machoText ⟨hdr0, [.Segment32 cTX [(okSect, [7, 8])]]⟩ = [7, 8] ∧
    machoBss ⟨hdr0, [.Segment32 cD [(sBss, [])]]⟩ = 7 := by
  constructor
  · have h := (c10_name_matching hdr0 cTX okSect [7, 8] (by decide) (by decide)).1
    rw [if_pos (by decide)] at h
    exact h
  · have h := (c10_name_matching hdr0 cD sBss [] (by decide) (by decide)).2.2
    rw [if_pos (by decide)] at h
    exact h

/-! ### Claim C2 -/

set_option maxRecDepth 8192 in
/-- Claim C2, counterexample: `crashBuf` carries a section whose
`(offset, size)` pair `(1000, 10)` lies outside the 152-byte buffer;
`decode_macho` neither returns a decode error from the `Error` taxonomy
nor truncates the read — it crashes (the out-of-range slice panic of
`load`). -/
theorem c2_counterexample :
    decode_macho crashBuf = .crash ∧ ∀ e : Error, decode_macho crashBuf ≠ .err e := by
  have h : decode_macho crashBuf = .crash := by decide
  exact ⟨h, fun e hx => by rw [h] at hx; cases hx⟩

/-- Claim C2 as amended: whenever decode succeeds, every section's
`(offset, size)` pair lies entirely inside the buffer and its loaded
bytes are exactly `size` long — reads are never truncated; an
out-of-bounds pair instead aborts decode with a crash (panic or
out-of-bounds access), not an `Error` return. -/
theorem c2_in_bounds (file : List Nat) (m : MachO)
    (h : decode_macho file = .ok m) : ∀ lc ∈ m.loads, sectionsInBounds file lc := by
  unfold decode_macho at h
  split at h
  · cases h
  · split at h
    · cases h
    · rename_i hb hhb
      dsimp only at h
      split at h
      · split at h
        · cases h
        · cases hrec : decodeCmds file Macho.headerSize 0 (parseHeader hb).ncmds with
          | ok lcs =>
            rw [hrec] at h
            simp only [DResult.map] at h
            injection h with h'
            subst h'
            intro lc hm
            exact decodeCmds_mem _ _ _ _ hrec lc hm
          | err e =>
            rw [hrec] at h
            cases h
          | crash =>
            rw [hrec] at h
            cases h
      · split at h
        · split at h
          · cases h
          · cases hrec : decodeCmds file Macho.header64Size 0 (parseHeader hb).ncmds with
            | ok lcs =>
              rw [hrec] at h
              simp only [DResult.map] at h
              injection h with h'
              subst h'
              intro lc hm
              exact decodeCmds_mem _ _ _ _ hrec lc hm
            | err e =>
              rw [hrec] at h
              cases h
            | crash =>
              rw [hrec] at h
              cases h
        · cases h

set_option maxRecDepth 8192 in
/-- Concrete instance of `c2_in_bounds`: decoding `okBuf` succeeds and
the single section's range `[152, 156)` lies inside the 156-byte buffer,
its four loaded bytes matching the declared size 4. -/
theorem c2_in_bounds_witness :
    okSect.offset + okSect.size ≤ okBuf.length ∧
    ([11, 22, 33, 44] : List Nat).length = okSect.size :=
  c2_in_bounds okBuf okImg (by decide) (.Segment32 okCmd [(okSect, [11, 22, 33, 44])])
    (by simp [okImg]) okSect [11, 22, 33, 44] (by simp)

